import Mathlib

/-!
Verification of the diagram-generation core of the Archify-Ai repository.

The embedding below follows backend/api/svg_diagram_generator.py (class
EnhancedSVGGenerator) and backend/api/architecture.py (normalize_for_diagram).
Python dictionaries are modelled as association lists in insertion order
(Python dicts preserve insertion order and have unique keys); optional dict
entries are modelled with Option; Python float arithmetic on layout
coordinates is modelled exactly over the rationals (the layout formulas use
only +, *, / on decimal constants).  Geometry that the source pushes through
trigonometric float functions (hexagon vertices, arrowhead rotation) is kept
symbolic: the renderers record the exact numeric arguments the source feeds
into those calls, which determine the emitted SVG text.
-/

/-- A component value: models the per-component dict with the optional keys
read by the source (type, description, shape, color) plus the layer key
written by normalize_for_diagram in architecture.py. -/
structure Component where
  type? : Option String
  description? : Option String
  shape? : Option String
  color? : Option String
  layer? : Option String
deriving DecidableEq, Repr

/-- A relationship value: models the per-relationship dict with the keys read
by the source (from, to, line, type, arrow) plus the optional display label
that the data model carries (used by the graphviz renderer in
image_generator.py). -/
structure Relationship where
  fromName? : Option String
  toName? : Option String
  line? : Option String
  type? : Option String
  label? : Option String
  arrow? : Option Bool
deriving DecidableEq, Repr

/-- The dict passed to generate_diagram_svg: keys components, relationships,
topic (each read with .get and a default in the source). -/
structure DiagramData where
  components : List (String × Component)
  relationships : List Relationship
  topic? : Option String
deriving DecidableEq, Repr

/-- The architecture dict handled by normalize_for_diagram in
architecture.py (components and relationships keys). -/
structure ArchitectureDict where
  components : List (String × Component)
  relationships : List Relationship
deriving DecidableEq, Repr

/-- Canvas width constant from _calculate_hierarchical_layout. -/
def canvas_width : ℚ := 1400

/-- Canvas height constant from _calculate_hierarchical_layout. -/
def canvas_height : ℚ := 900

/-- Horizontal margin constant from _calculate_hierarchical_layout. -/
def margin_x : ℚ := 150

/-- Vertical margin constant from _calculate_hierarchical_layout. -/
def margin_y : ℚ := 150

/-- Layer height constant from _calculate_hierarchical_layout. -/
def layer_height : ℚ := 180

/-- The fixed order in which _calculate_hierarchical_layout visits layers. -/
def layerOrder : List String := ["client", "gateway", "service", "data"]

/-- Python str.lower over ASCII text, applied per character (the semantic
types handled by the source are ASCII). -/
def str_toLower (s : String) : String := String.mk (s.data.map Char.toLower)

/-- The layer bucket a component is appended to in
_calculate_hierarchical_layout: the source lowers
comp.get(&quot;type&quot;, &quot;infrastructure&quot;) and tests membership in the
literal lists for client, gateway and data, with service as the fallback. -/
def layerOf (comp : Component) : String :=
  let comp_type := str_toLower (comp.type?.getD "infrastructure")
  if comp_type == "client" then "client"
  else if comp_type == "gateway" || comp_type == "external" then "gateway"
  else if comp_type == "database" || comp_type == "cache" || comp_type == "queue" then "data"
  else "service"

/-- The names collected into one layer bucket, in the iteration order of the
components mapping (the source iterates components.items() once, appending
each name to the bucket of its layer). -/
def layerMembers (components : List (String × Component)) (l : String) : List String :=
  (components.filter (fun p => layerOf p.2 == l)).map Prod.fst

/-- spacing = (canvas_width - 2 * margin_x) / max(num_in_layer, 1). -/
def layer_spacing (n : ℕ) : ℚ := (canvas_width - 2 * margin_x) / ((max n 1 : ℕ) : ℚ)

/-- One pass of the inner placement loop: component i of the layer is placed
at x = margin_x + (i + 0.5) * spacing and the current y. -/
def placeLayerFrom (y sp : ℚ) : ℕ → List String → List (String × ℚ × ℚ)
  | _, [] => []
  | i, name :: rest =>
    (name, margin_x + ((i : ℚ) + 0.5) * sp, y) :: placeLayerFrom y sp (i + 1) rest

/-- Placement of one non-empty layer at a given y. -/
def placeLayer (names : List String) (y : ℚ) : List (String × ℚ × ℚ) :=
  placeLayerFrom y (layer_spacing names.length) 0 names

/-- The outer loop of _calculate_hierarchical_layout: walk the four layers in
order, skip empty ones (continue, without advancing current_y), place the
members of a non-empty layer at current_y, then advance current_y by
layer_height. -/
def placeLayers (components : List (String × Component)) :
    List String → ℚ → List (String × ℚ × ℚ)
  | [], _ => []
  | l :: rest, current_y =>
    if (layerMembers components l).isEmpty then placeLayers components rest current_y
    else placeLayer (layerMembers components l) current_y ++
      placeLayers components rest (current_y + layer_height)

/-- _calculate_hierarchical_layout: returns the mapping from component name
to (x, y).  The relationships argument of the source is unused for position
computation. -/
def _calculate_hierarchical_layout (components : List (String × Component)) :
    List (String × ℚ × ℚ) :=
  placeLayers components layerOrder margin_y

/-- Whether a layer bucket is non-empty for the given components. -/
def layerNonempty (components : List (String × Component)) (l : String) : Bool :=
  !(layerMembers components l).isEmpty

/-- How many of the given layer names are non-empty for the given
components. -/
def countNonempty (components : List (String × Component)) (ls : List String) : ℕ :=
  (ls.filter (layerNonempty components)).length

/-- Position lookup: positions[name]; None keys (a missing from/to entry)
never resolve, matching the Python membership test on the dict. -/
def posLookup (positions : List (String × ℚ × ℚ)) (name? : Option String) :
    Option (ℚ × ℚ) :=
  match name? with
  | none => none
  | some n => (positions.find? (fun p => p.1 == n)).map Prod.snd

/-- The default color palette from the EnhancedSVGGenerator constructor,
looked up with default &quot;#6B7280&quot;. -/
def default_palette (t : String) : String :=
  if t == "client" then "#7C3AED"
  else if t == "gateway" then "#059669"
  else if t == "microservice" then "#DC2626"
  else if t == "database" then "#B91C1C"
  else if t == "cache" then "#F59E0B"
  else if t == "queue" then "#8B5CF6"
  else if t == "external" then "#06B6D4"
  else if t == "infrastructure" then "#1D4ED8"
  else "#6B7280"

/-- The five shape families emitted by the _draw_cylinder, _draw_hexagon,
_draw_circle, _draw_queue and _draw_rounded_rect helpers. -/
inductive ShapeKind where
  | cylinder
  | hexagon
  | circle
  | queue
  | rounded_rect
deriving DecidableEq, Repr

/-- The node primitive a _draw_ helper emits: the shape family together with
the arguments that determine its SVG text (center, fill color, the name and
type labels, and for the rounded rectangle its rendered description line).
The remaining geometry of each family is a fixed function of these. -/
structure NodeRender where
  name : String
  x : ℚ
  y : ℚ
  color : String
  comp_type : String
  shape : ShapeKind
  descText : Option String
deriving DecidableEq, Repr

/-- The description line of _draw_rounded_rect, line 236 of the source:
(description[:25] + ...) if len(description) > 25 else description. -/
def _draw_rounded_rect_desc (description : String) : String :=
  if description.length > 25 then description.take 25 ++ "..." else description

/-- _draw_cylinder: databases; renders name and type labels, ignores the
description. -/
def _draw_cylinder (x y : ℚ) (color name comp_type _description : String) : NodeRender :=
  ⟨name, x, y, color, comp_type, ShapeKind.cylinder, none⟩

/-- _draw_hexagon: gateways; renders name and type labels, ignores the
description. -/
def _draw_hexagon (x y : ℚ) (color name comp_type _description : String) : NodeRender :=
  ⟨name, x, y, color, comp_type, ShapeKind.hexagon, none⟩

/-- _draw_circle: renders name and type labels, ignores the description. -/
def _draw_circle (x y : ℚ) (color name comp_type _description : String) : NodeRender :=
  ⟨name, x, y, color, comp_type, ShapeKind.circle, none⟩

/-- _draw_queue: stacked rectangles; renders name and type labels, ignores
the description. -/
def _draw_queue (x y : ℚ) (color name comp_type _description : String) : NodeRender :=
  ⟨name, x, y, color, comp_type, ShapeKind.queue, none⟩

/-- _draw_rounded_rect: the default family; renders name, type and the
truncated description line. -/
def _draw_rounded_rect (x y : ℚ) (color name comp_type description : String) : NodeRender :=
  ⟨name, x, y, color, comp_type, ShapeKind.rounded_rect,
    some (_draw_rounded_rect_desc description)⟩

/-- _draw_shape: the dispatch chain of the source, tested in order:
shape == cylinder or type == database; elif shape == hexagon or
type == gateway; elif shape == circle; elif shape == lightning or
type == queue; else rounded rectangle. -/
def _draw_shape (x y : ℚ) (shape color name comp_type description : String) : NodeRender :=
  if shape == "cylinder" || comp_type == "database" then
    _draw_cylinder x y color name comp_type description
  else if shape == "hexagon" || comp_type == "gateway" then
    _draw_hexagon x y color name comp_type description
  else if shape == "circle" then
    _draw_circle x y color name comp_type description
  else if shape == "lightning" || comp_type == "queue" then
    _draw_queue x y color name comp_type description
  else
    _draw_rounded_rect x y color name comp_type description

/-- _generate_modern_nodes: iterate components.items(), skip names without a
position, resolve type (lowercased, default infrastructure), description
(default empty), color (explicit truthy value, else palette by type), shape
(default rounded_rectangle), and draw. -/
def _generate_modern_nodes (components : List (String × Component))
    (positions : List (String × ℚ × ℚ)) : List NodeRender :=
  components.filterMap (fun p =>
    match posLookup positions (some p.1) with
    | none => none
    | some q =>
      let comp := p.2
      let comp_type := str_toLower (comp.type?.getD "infrastructure")
      let description := comp.description?.getD ""
      let color0 := comp.color?.getD ""
      let color := if color0 == "" then default_palette comp_type else color0
      let shape := comp.shape?.getD "rounded_rectangle"
      some (_draw_shape q.1 q.2 shape color p.1 comp_type description))

/-- Python str.replace applied to the single-character pattern underscore
with a space replacement, as in rel_type.replace in _draw_bezier_edge. -/
def replace_underscores (s : String) : String :=
  String.mk (s.data.map (fun c => if c = '_' then ' ' else c))

/-- One step of Python str.title over ASCII text: an alphabetic character is
uppercased when the previous character was not alphabetic and lowercased
otherwise; other characters pass through and reset the word. -/
def titleGo : Bool → List Char → List Char
  | _, [] => []
  | prevAlpha, c :: rest =>
    if c.isAlpha then
      (if prevAlpha then c.toLower else c.toUpper) :: titleGo true rest
    else
      c :: titleGo false rest

/-- Python str.title over ASCII text, as used for the edge label. -/
def titleCase (s : String) : String := String.mk (titleGo false s.data)

/-- Edge color palette, color_map.get(rel_type, &quot;#6B7280&quot;) in
_draw_bezier_edge. -/
def color_map (rel_type : String) : String :=
  if rel_type == "request" then "#3B82F6"
  else if rel_type == "response" then "#10B981"
  else if rel_type == "sync_call" then "#3B82F6"
  else if rel_type == "async_event" then "#8B5CF6"
  else if rel_type == "read_write" then "#EF4444"
  else "#6B7280"

/-- The edge primitive _draw_bezier_edge emits: endpoints, the two cubic
control points, stroke color and dash pattern, whether the arrowhead polygon
is present (its vertices are a fixed trigonometric function of the endpoint
and the second control point), the label text, and the label background
rectangle and label text placement. -/
structure EdgeRender where
  x1 : ℚ
  y1 : ℚ
  x2 : ℚ
  y2 : ℚ
  cx1 : ℚ
  cy1 : ℚ
  cx2 : ℚ
  cy2 : ℚ
  color : String
  dasharray : String
  arrow : Bool
  labelText : String
  label_rect_x : ℚ
  label_rect_y : ℚ
  label_rect_width : ℚ
  label_rect_height : ℚ
  label_text_x : ℚ
  label_text_y : ℚ
deriving DecidableEq, Repr

/-- _draw_bezier_edge: control points at 0.3 and 0.7 of the straight line
with a +30 vertical bias, color by relationship type, dash pattern by line
style, label = rel_type.replace underscore space then title, background rect
at (mid_x - 3.5 * len, mid_y - 12) of width 7 * len and height 20, label
text at (mid_x, mid_y + 3) where mid is the straight-line midpoint shifted
down by 20. -/
def _draw_bezier_edge (x1 y1 x2 y2 : ℚ) (line_type rel_type : String) (arrow : Bool) :
    EdgeRender :=
  let dx := x2 - x1
  let dy := y2 - y1
  let cx1 := x1 + dx * 0.3
  let cy1 := y1 + dy * 0.3 + 30
  let cx2 := x1 + dx * 0.7
  let cy2 := y1 + dy * 0.7 + 30
  let color := color_map rel_type
  let stroke_dasharray :=
    if line_type == "dashed" then "8,4"
    else if line_type == "dotted" then "2,3"
    else ""
  let mid_x := (x1 + x2) / 2
  let mid_y := (y1 + y2) / 2 + 20
  let label := titleCase (replace_underscores rel_type)
  ⟨x1, y1, x2, y2, cx1, cy1, cx2, cy2, color, stroke_dasharray, arrow, label,
    mid_x - (label.length : ℚ) * 3.5, mid_y - 12, (label.length : ℚ) * 7, 20,
    mid_x, mid_y + 3⟩

/-- _generate_modern_edges: for each relationship, read from and to, skip the
relationship when either does not resolve to a position, else draw a bezier
edge with line (default solid), type (default request) and arrow (default
true). -/
def _generate_modern_edges (relationships : List Relationship)
    (positions : List (String × ℚ × ℚ)) : List EdgeRender :=
  relationships.filterMap (fun rel =>
    match posLookup positions rel.fromName?, posLookup positions rel.toName? with
    | some p1, some p2 =>
      some (_draw_bezier_edge p1.1 p1.2 p2.1 p2.2
        (rel.line?.getD "solid") (rel.type?.getD "request") (rel.arrow?.getD true))
    | _, _ => none)

/-- Whether both endpoints of a relationship resolve to positions (the guard
of the skip in _generate_modern_edges). -/
def resolvable (positions : List (String × ℚ × ℚ)) (rel : Relationship) : Bool :=
  (posLookup positions rel.fromName?).isSome && (posLookup positions rel.toName?).isSome

/-- _generate_empty_diagram: the exact placeholder document of the source. -/
def _generate_empty_diagram (topic : String) : String :=
  "<svg xmlns=\"http://www.w3.org/2000/svg\" viewBox=\"0 0 1400 900\" width=\"1400\" height=\"900\">\n        <rect width=\"100%\" height=\"100%\" fill=\"#f8fafc\"/>\n        <text x=\"700\" y=\"450\" text-anchor=\"middle\" font-size=\"24\" fill=\"#64748b\">\n            No components found for: "
    ++ topic ++ "\n        </text>\n        </svg>"

/-- The composed output of generate_diagram_svg: either the placeholder
document for an empty component set, or the assembled diagram (header,
background and the title block are fixed functions of the topic; edges are
emitted before nodes). -/
inductive DiagramOutput where
  | empty (doc : String)
  | diagram (topic : String) (edges : List EdgeRender) (nodes : List NodeRender)
deriving DecidableEq, Repr

/-- generate_diagram_svg: read components (default empty), relationships
(default empty) and topic (default Architecture); an empty component set
short-circuits to the placeholder, otherwise compute the layout once and
assemble title, edges and nodes from it. -/
def generate_diagram_svg (data : DiagramData) : DiagramOutput :=
  let components := data.components
  let relationships := data.relationships
  let topic := data.topic?.getD "Architecture"
  if components.isEmpty then
    DiagramOutput.empty (_generate_empty_diagram topic)
  else
    let node_positions := _calculate_hierarchical_layout components
    DiagramOutput.diagram topic
      (_generate_modern_edges relationships node_positions)
      (_generate_modern_nodes components node_positions)

/-- The layer string normalize_for_diagram writes into a component, from the
exact (not lowercased) type with default empty string. -/
def normalize_component (comp : Component) : Component :=
  let ctype := comp.type?.getD ""
  let layer :=
    if ctype == "client" || ctype == "frontend" then "client"
    else if ctype == "gateway" || ctype == "load_balancer" then "edge"
    else if ctype == "microservice" || ctype == "service" then "service"
    else if ctype == "database" || ctype == "cache" then "data"
    else "external"
  { comp with layer? := some layer, shape? := none, color? := none }

/-- normalize_for_diagram in architecture.py as a value transformer: each
component gets a layer entry and loses its shape and color entries, each
relationship loses its line entry; the returned dict holds these
components and relationships. -/
def normalize_for_diagram (architecture : ArchitectureDict) : ArchitectureDict :=
  ⟨architecture.components.map (fun p => (p.1, normalize_component p.2)),
    architecture.relationships.map (fun r => { r with line? := none })⟩

/-- In the source, normalize_for_diagram performs the layer assignment and
the pops by mutating the component and relationship dicts of its argument in
place and returns the very same objects; modelling that mutation as explicit
state passing, the architecture the caller holds after the call is the
normalized value, not the original. -/
def normalize_for_diagram_caller_state (architecture : ArchitectureDict) : ArchitectureDict :=
  normalize_for_diagram architecture

theorem mem_placeLayerFrom {y sp : ℚ} :
    ∀ (names : List String) (i0 : ℕ) (name : String) (x yy : ℚ),
    (name, x, yy) ∈ placeLayerFrom y sp i0 names ↔
      ∃ j : ℕ, ∃ hj : j < names.length,
        names.get ⟨j, hj⟩ = name ∧
        x = margin_x + (((i0 + j : ℕ) : ℚ) + 0.5) * sp ∧ yy = y := by
  intro names
  induction names with
  | nil => intro i0 name x yy; simp [placeLayerFrom]
  | cons hd tl ih =>
    intro i0 name x yy
    simp only [placeLayerFrom, List.mem_cons, Prod.mk.injEq, ih]
    constructor
    · rintro (⟨h1, h2, h3⟩ | ⟨j, hj, h1, h2, h3⟩)
      · refine ⟨0, by simp, by simpa using h1.symm, by simpa using h2, h3⟩
      · refine ⟨j + 1, by simpa using Nat.succ_lt_succ hj, by simpa using h1, ?_, h3⟩
        rw [h2]; push_cast; ring
    · rintro ⟨j, hj, h1, h2, h3⟩
      cases j with
      | zero =>
        left
        refine ⟨by simpa using h1.symm, by simpa using h2, h3⟩
      | succ j =>
        right
        refine ⟨j, by simp only [List.length_cons] at hj; omega, by simpa using h1, ?_, h3⟩
        rw [h2]; push_cast; ring

theorem mem_placeLayer {names : List String} {y : ℚ} {name : String} {x yy : ℚ} :
    (name, x, yy) ∈ placeLayer names y ↔
      ∃ j : ℕ, ∃ hj : j < names.length,
        names.get ⟨j, hj⟩ = name ∧
        x = margin_x + ((j : ℚ) + 0.5) * layer_spacing names.length ∧ yy = y := by
  simpa using mem_placeLayerFrom names 0 name x yy

theorem countNonempty_cons {components : List (String × Component)} {l0 : String}
    {ls : List String} :
    countNonempty components (l0 :: ls) =
      (if layerNonempty components l0 then 1 else 0) + countNonempty components ls := by
  simp only [countNonempty, List.filter_cons]
  split <;> simp [Nat.add_comm]

theorem mem_placeLayers {components : List (String × Component)} :
    ∀ (ls : List String), ls.Nodup → ∀ (y0 : ℚ) (name : String) (x y : ℚ),
    (name, x, y) ∈ placeLayers components ls y0 →
    ∃ l, l ∈ ls ∧ ∃ j : ℕ, ∃ hj : j < (layerMembers components l).length,
      (layerMembers components l).get ⟨j, hj⟩ = name ∧
      x = margin_x + ((j : ℚ) + 0.5) * layer_spacing (layerMembers components l).length ∧
      y = y0 + layer_height *
        (countNonempty components (ls.takeWhile (fun l2 => l2 != l)) : ℚ) := by
  intro ls
  induction ls with
  | nil => intro _ y0 name x y h; simp [placeLayers] at h
  | cons l0 rest ih =>
    intro hnd y0 name x y h
    have hnd0 : l0 ∉ rest := (List.nodup_cons.mp hnd).1
    have hndr : rest.Nodup := (List.nodup_cons.mp hnd).2
    rw [placeLayers] at h
    by_cases he : (layerMembers components l0).isEmpty
    · rw [if_pos he] at h
      obtain ⟨l, hl, j, hj, h1, h2, h3⟩ := ih hndr y0 name x y h
      have hne : l0 ≠ l := fun hc => hnd0 (hc ▸ hl)
      refine ⟨l, List.mem_cons_of_mem _ hl, j, hj, h1, h2, ?_⟩
      rw [List.takeWhile_cons, if_pos (by simp [hne]), countNonempty_cons,
        if_neg (by simp [layerNonempty, he])]
      simpa using h3
    · rw [if_neg he] at h
      rcases List.mem_append.mp h with h | h
      · obtain ⟨j, hj, h1, h2, h3⟩ := mem_placeLayer.mp h
        refine ⟨l0, List.mem_cons_self _ _, j, hj, h1, h2, ?_⟩
        rw [List.takeWhile_cons, if_neg (by simp)]
        rw [h3]; simp [countNonempty]
      · obtain ⟨l, hl, j, hj, h1, h2, h3⟩ := ih hndr (y0 + layer_height) name x y h
        have hne : l0 ≠ l := fun hc => hnd0 (hc ▸ hl)
        refine ⟨l, List.mem_cons_of_mem _ hl, j, hj, h1, h2, ?_⟩
        rw [List.takeWhile_cons, if_pos (by simp [hne]), countNonempty_cons,
          if_pos (by simp [layerNonempty, he])]
        rw [h3]; push_cast; ring

theorem mem_layout {components : List (String × Component)} {name : String} {x y : ℚ}
    (h : (name, x, y) ∈ _calculate_hierarchical_layout components) :
    ∃ l, l ∈ layerOrder ∧ ∃ j : ℕ, ∃ hj : j < (layerMembers components l).length,
      (layerMembers components l).get ⟨j, hj⟩ = name ∧
      x = margin_x + ((j : ℚ) + 0.5) * layer_spacing (layerMembers components l).length ∧
      y = margin_y + layer_height *
        (countNonempty components (layerOrder.takeWhile (fun l2 => l2 != l)) : ℚ) :=
  mem_placeLayers layerOrder (by decide) margin_y name x y h

theorem mem_layerMembers {components : List (String × Component)} {l name : String} :
    name ∈ layerMembers components l ↔
      ∃ comp, (name, comp) ∈ components ∧ layerOf comp = l := by
  simp only [layerMembers, List.mem_map, List.mem_filter]
  constructor
  · rintro ⟨⟨a, b⟩, ⟨hmem, hf⟩, rfl⟩
    exact ⟨b, hmem, by simpa using hf⟩
  · rintro ⟨comp, hmem, hl⟩
    exact ⟨(name, comp), ⟨hmem, by simpa using hl⟩, rfl⟩

theorem nodup_key_unique :
    ∀ {components : List (String × Component)}, (components.map Prod.fst).Nodup →
    ∀ {name : String} {c1 c2 : Component},
      (name, c1) ∈ components → (name, c2) ∈ components → c1 = c2 := by
  intro components
  induction components with
  | nil => intro _ name c1 c2 h; simp at h
  | cons hd tl ih =>
    intro hnd name c1 c2 h1 h2
    simp only [List.map_cons, List.nodup_cons] at hnd
    rcases List.mem_cons.mp h1 with h1 | h1 <;> rcases List.mem_cons.mp h2 with h2 | h2
    · exact congrArg Prod.snd (h1.trans h2.symm)
    · exfalso
      exact hnd.1 (h1 ▸ (List.mem_map_of_mem Prod.fst h2 : (name, c2).1 ∈ tl.map Prod.fst))
    · exfalso
      exact hnd.1 (h2 ▸ (List.mem_map_of_mem Prod.fst h1 : (name, c1).1 ∈ tl.map Prod.fst))
    · exact ih hnd.2 h1 h2

theorem layerMembers_nodup {components : List (String × Component)}
    (hnd : (components.map Prod.fst).Nodup) (l : String) :
    (layerMembers components l).Nodup := by
  refine hnd.sublist ?_
  simpa [layerMembers] using (List.filter_sublist components).map Prod.fst

theorem countNonempty_le_append {components : List (String × Component)}
    (A B : List String) :
    countNonempty components A ≤ countNonempty components (A ++ B) := by
  simp [countNonempty, List.filter_append]

theorem layout_layer_of_comp {components : List (String × Component)}
    (hnd : (components.map Prod.fst).Nodup) {name : String} {comp : Component}
    {l : String} (hc : (name, comp) ∈ components)
    (hm : name ∈ layerMembers components l) : layerOf comp = l := by
  obtain ⟨comp2, hc2, hl2⟩ := mem_layerMembers.mp hm
  rwa [nodup_key_unique hnd hc hc2]

theorem layout_y_of_comp {components : List (String × Component)}
    (hnd : (components.map Prod.fst).Nodup) {name : String} {comp : Component} {x y : ℚ}
    (hc : (name, comp) ∈ components)
    (hp : (name, x, y) ∈ _calculate_hierarchical_layout components) :
    y = margin_y + layer_height *
      (countNonempty components (layerOrder.takeWhile (fun l2 => l2 != layerOf comp)) : ℚ) := by
  obtain ⟨l, hlo, j, hj, hget, hx, hy⟩ := mem_layout hp
  have hm : name ∈ layerMembers components l := hget ▸ List.get_mem _ _ _
  rw [layout_layer_of_comp hnd hc hm]
  exact hy

theorem layout_x_of_get {components : List (String × Component)}
    (hnd : (components.map Prod.fst).Nodup) {l : String} {j : ℕ}
    (hj : j < (layerMembers components l).length) {name : String} {comp : Component}
    (hc : (name, comp) ∈ components)
    (hget : (layerMembers components l).get ⟨j, hj⟩ = name) {x y : ℚ}
    (hp : (name, x, y) ∈ _calculate_hierarchical_layout components) :
    x = margin_x + ((j : ℚ) + 0.5) * layer_spacing (layerMembers components l).length := by
  obtain ⟨l2, hlo, j2, hj2, hget2, hx, hy⟩ := mem_layout hp
  have hm : name ∈ layerMembers components l := hget ▸ List.get_mem _ _ _
  have hm2 : name ∈ layerMembers components l2 := hget2 ▸ List.get_mem _ _ _
  have hll : l = l2 := by
    rw [← layout_layer_of_comp hnd hc hm, ← layout_layer_of_comp hnd hc hm2]
  subst hll
  have hjj : (⟨j, hj⟩ : Fin (layerMembers components l).length) = ⟨j2, hj2⟩ :=
    (layerMembers_nodup hnd l).get_inj_iff.mp (hget.trans hget2.symm)
  have hj12 : j = j2 := Fin.mk.injEq _ _ _ _ ▸ hjj
  subst hj12
  exact hx

theorem countNonempty_takeWhile_le_data {components : List (String × Component)}
    {l : String} (hl : l ∈ layerOrder) :
    countNonempty components (layerOrder.takeWhile (fun l2 => l2 != l)) ≤
      countNonempty components (layerOrder.takeWhile (fun l2 => l2 != "data")) := by
  have hdata : layerOrder.takeWhile (fun l2 => l2 != "data") =
      ["client", "gateway", "service"] := by decide
  rw [hdata]
  simp only [layerOrder, List.mem_cons, List.not_mem_nil, or_false] at hl
  rcases hl with h | h | h | h
  · subst h
    have : layerOrder.takeWhile (fun l2 => l2 != "client") = ([] : List String) := by decide
    rw [this]
    simpa using countNonempty_le_append ([] : List String) ["client", "gateway", "service"]
  · subst h
    have : layerOrder.takeWhile (fun l2 => l2 != "gateway") = ["client"] := by decide
    rw [this]
    simpa using countNonempty_le_append ["client"] ["gateway", "service"]
  · subst h
    have : layerOrder.takeWhile (fun l2 => l2 != "service") = ["client", "gateway"] := by decide
    rw [this]
    simpa using countNonempty_le_append ["client", "gateway"] ["service"]
  · subst h
    exact le_refl _

theorem takeWhile_length_le_three {l : String} (hl : l ∈ layerOrder) :
    (layerOrder.takeWhile (fun l2 => l2 != l)).length ≤ 3 := by
  simp only [layerOrder, List.mem_cons, List.not_mem_nil, or_false] at hl
  rcases hl with h | h | h | h
  · subst h; decide
  · subst h; decide
  · subst h; decide
  · subst h; decide

/-- C4: layer assignment is a total function of the (lowercased) semantic
type into the four layers, with client to client, gateway and external to
gateway, database, cache and queue to data, and everything else (including a
missing type) to service; client-layer components get the smallest
y-coordinate of the layout and data-layer components the largest; and every
y-coordinate equals margin_y plus layer_height times the number of non-empty
layers strictly before the layer of the component, so no vertical gap is
reserved for an empty layer. -/
theorem C4_layer_assignment (components : List (String × Component))
    (hnd : (components.map Prod.fst).Nodup) :
    (∀ comp : Component, layerOf comp ∈ layerOrder) ∧
    (∀ comp : Component, str_toLower (comp.type?.getD "infrastructure") = "client" →
      layerOf comp = "client") ∧
    (∀ comp : Component, (str_toLower (comp.type?.getD "infrastructure") = "gateway" ∨
      str_toLower (comp.type?.getD "infrastructure") = "external") →
      layerOf comp = "gateway") ∧
    (∀ comp : Component, (str_toLower (comp.type?.getD "infrastructure") = "database" ∨
      str_toLower (comp.type?.getD "infrastructure") = "cache" ∨
      str_toLower (comp.type?.getD "infrastructure") = "queue") →
      layerOf comp = "data") ∧
    (∀ comp : Component, str_toLower (comp.type?.getD "infrastructure") ∉
      (["client", "gateway", "external", "database", "cache", "queue"] : List String) →
      layerOf comp = "service") ∧
    (∀ comp : Component, comp.type? = none → layerOf comp = "service") ∧
    (∀ name comp x y, (name, comp) ∈ components →
      (name, x, y) ∈ _calculate_hierarchical_layout components →
      layerOf comp = "client" →
      ∀ name2 x2 y2, (name2, x2, y2) ∈ _calculate_hierarchical_layout components →
        y ≤ y2) ∧
    (∀ name comp x y, (name, comp) ∈ components →
      (name, x, y) ∈ _calculate_hierarchical_layout components →
      layerOf comp = "data" →
      ∀ name2 x2 y2, (name2, x2, y2) ∈ _calculate_hierarchical_layout components →
        y2 ≤ y) ∧
    (∀ name comp x y, (name, comp) ∈ components →
      (name, x, y) ∈ _calculate_hierarchical_layout components →
      y = margin_y + layer_height *
        (countNonempty components
          (layerOrder.takeWhile (fun l2 => l2 != layerOf comp)) : ℚ)) := by
  refine ⟨?_, ?_, ?_, ?_, ?_, ?_, ?_, ?_, ?_⟩
  · intro comp
    simp only [layerOf, layerOrder]
    split_ifs <;> simp
  · intro comp h
    simp [layerOf, h]
  · intro comp h
    rcases h with h | h <;> simp [layerOf, h]
  · intro comp h
    rcases h with h | h | h <;> simp [layerOf, h]
  · intro comp h
    simp only [List.mem_cons, not_or] at h
    obtain ⟨h1, h2, h3, h4, h5, h6, _⟩ := h
    simp [layerOf, h1, h2, h3, h4, h5, h6]
  · intro comp h
    simp only [layerOf, h]
    decide
  · intro name comp x y hc hp hcl name2 x2 y2 hp2
    have hy := layout_y_of_comp hnd hc hp
    rw [hcl] at hy
    have h0 : layerOrder.takeWhile (fun l2 => l2 != "client") = ([] : List String) := by
      decide
    rw [h0] at hy
    simp only [countNonempty, List.filter_nil, List.length_nil, Nat.cast_zero,
      mul_zero, add_zero] at hy
    obtain ⟨l2, hlo2, j2, hj2, hget2, hx2, hy2⟩ := mem_layout hp2
    rw [hy, hy2]
    have : (0 : ℚ) ≤ layer_height * (countNonempty components
        (layerOrder.takeWhile (fun l3 => l3 != l2)) : ℚ) := by
      apply mul_nonneg
      · norm_num [layer_height]
      · exact Nat.cast_nonneg _
    linarith
  · intro name comp x y hc hp hcl name2 x2 y2 hp2
    have hy := layout_y_of_comp hnd hc hp
    rw [hcl] at hy
    obtain ⟨l2, hlo2, j2, hj2, hget2, hx2, hy2⟩ := mem_layout hp2
    rw [hy, hy2]
    have hle : countNonempty components (layerOrder.takeWhile (fun l3 => l3 != l2)) ≤
        countNonempty components (layerOrder.takeWhile (fun l3 => l3 != "data")) :=
      countNonempty_takeWhile_le_data hlo2
    have hleq : ((countNonempty components
        (layerOrder.takeWhile (fun l3 => l3 != l2)) : ℚ)) ≤
        ((countNonempty components
          (layerOrder.takeWhile (fun l3 => l3 != "data")) : ℚ)) := by
      exact_mod_cast hle
    have : layer_height * ((countNonempty components
        (layerOrder.takeWhile (fun l3 => l3 != l2)) : ℚ)) ≤
        layer_height * ((countNonempty components
          (layerOrder.takeWhile (fun l3 => l3 != "data")) : ℚ)) := by
      apply mul_le_mul_of_nonneg_left hleq
      norm_num [layer_height]
    linarith
  · intro name comp x y hc hp
    exact layout_y_of_comp hnd hc hp

/-- C5: within a layer of N components the usable horizontal span is divided
into N equal cells, each component sits at its cell midpoint in the
insertion order of the components mapping, and the x-distance between
adjacent members is the constant span / N. -/
theorem C5_even_spacing (components : List (String × Component))
    (hnd : (components.map Prod.fst).Nodup)
    (l : String) (i : ℕ) (hi : i + 1 < (layerMembers components l).length)
    (name1 name2 : String) (comp1 comp2 : Component) (x1 y1 x2 y2 : ℚ)
    (hc1 : (name1, comp1) ∈ components) (hc2 : (name2, comp2) ∈ components)
    (hget1 : (layerMembers components l).get ⟨i, Nat.lt_of_succ_lt hi⟩ = name1)
    (hget2 : (layerMembers components l).get ⟨i + 1, hi⟩ = name2)
    (hp1 : (name1, x1, y1) ∈ _calculate_hierarchical_layout components)
    (hp2 : (name2, x2, y2) ∈ _calculate_hierarchical_layout components) :
    x1 = margin_x + ((i : ℚ) + 0.5) *
      ((canvas_width - 2 * margin_x) / ((layerMembers components l).length : ℚ)) ∧
    x2 - x1 = (canvas_width - 2 * margin_x) / ((layerMembers components l).length : ℚ) := by
  have hN : 1 ≤ (layerMembers components l).length := by omega
  have hmax : max (layerMembers components l).length 1 = (layerMembers components l).length :=
    Nat.max_eq_left hN
  have hsp : layer_spacing (layerMembers components l).length =
      (canvas_width - 2 * margin_x) / ((layerMembers components l).length : ℚ) := by
    rw [layer_spacing, hmax]
  have hx1 := layout_x_of_get hnd (Nat.lt_of_succ_lt hi) hc1 hget1 hp1
  have hx2 := layout_x_of_get hnd hi hc2 hget2 hp2
  rw [hsp] at hx1 hx2
  constructor
  · exact hx1
  · rw [hx1, hx2]
    push_cast
    ring

/-- C10: every computed position lies inside the fixed canvas: x between the
horizontal margins 150 and 1250, and y one of at most four values 150 + 180k
with k at most 3. -/
theorem C10_canvas_bounds (components : List (String × Component)) (name : String)
    (x y : ℚ) (h : (name, x, y) ∈ _calculate_hierarchical_layout components) :
    150 ≤ x ∧ x ≤ 1250 ∧ ∃ k : ℕ, k ≤ 3 ∧ y = 150 + 180 * (k : ℚ) := by
  obtain ⟨l, hlo, j, hj, hget, hx, hy⟩ := mem_layout h
  have hN : 1 ≤ (layerMembers components l).length := by omega
  have hmax : max (layerMembers components l).length 1 = (layerMembers components l).length :=
    Nat.max_eq_left hN
  set N := (layerMembers components l).length with hNdef
  have hq : (0 : ℚ) < (N : ℚ) := by exact_mod_cast hN
  have hsp : layer_spacing N = 1100 / (N : ℚ) := by
    rw [layer_spacing, hmax]
    norm_num [canvas_width, margin_x]
  rw [hsp] at hx
  have hpos : (0 : ℚ) < 1100 / (N : ℚ) := div_pos (by norm_num) hq
  refine ⟨?_, ?_, ?_⟩
  · rw [hx, margin_x]
    have : (0 : ℚ) ≤ ((j : ℚ) + 0.5) * (1100 / (N : ℚ)) := by
      apply mul_nonneg _ hpos.le
      positivity
    linarith
  · rw [hx, margin_x]
    have hjN : (j : ℚ) + 0.5 ≤ (N : ℚ) := by
      have : (j : ℚ) + 1 ≤ (N : ℚ) := by exact_mod_cast hj
      linarith
    have h1 : ((j : ℚ) + 0.5) * (1100 / (N : ℚ)) ≤ (N : ℚ) * (1100 / (N : ℚ)) :=
      mul_le_mul_of_nonneg_right hjN hpos.le
    have h2 : (N : ℚ) * (1100 / (N : ℚ)) = 1100 := by
      field_simp
    linarith
  · refine ⟨countNonempty components (layerOrder.takeWhile (fun l2 => l2 != l)), ?_, ?_⟩
    · exact le_trans (List.length_filter_le _ _) (takeWhile_length_le_three hlo)
    · rw [hy, margin_y, layer_height]

/-- C1 (amended): the dispatch selects a family by ordered tests mixing the
override and the type: a cylinder override always wins; a hexagon override
wins unless the type is database; a circle or lightning override wins unless
the type is database or gateway; with an unknown or absent override the
type-driven defaults apply (database to cylinder, gateway to hexagon, queue
to stacked rectangles, else rounded rectangle); and the circle family is
reachable only through the explicit circle override. -/
theorem C1_shape_selection (x y : ℚ) (color name description : String)
    (shape comp_type : String) :
    ((_draw_shape x y "cylinder" color name comp_type description).shape =
      ShapeKind.cylinder) ∧
    (comp_type ≠ "database" →
      (_draw_shape x y "hexagon" color name comp_type description).shape =
        ShapeKind.hexagon) ∧
    (comp_type ≠ "database" → comp_type ≠ "gateway" →
      (_draw_shape x y "circle" color name comp_type description).shape =
        ShapeKind.circle) ∧
    (comp_type ≠ "database" → comp_type ≠ "gateway" →
      (_draw_shape x y "lightning" color name comp_type description).shape =
        ShapeKind.queue) ∧
    (shape ∉ (["cylinder", "hexagon", "circle", "lightning"] : List String) →
      (_draw_shape x y shape color name comp_type description).shape =
        (if comp_type = "database" then ShapeKind.cylinder
         else if comp_type = "gateway" then ShapeKind.hexagon
         else if comp_type = "queue" then ShapeKind.queue
         else ShapeKind.rounded_rect)) ∧
    ((_draw_shape x y shape color name comp_type description).shape = ShapeKind.circle →
      shape = "circle") := by
  refine ⟨?_, ?_, ?_, ?_, ?_, ?_⟩
  · simp [_draw_shape, _draw_cylinder]
  · intro h
    simp [_draw_shape, _draw_hexagon, h]
  · intro h1 h2
    simp [_draw_shape, _draw_circle, h1, h2]
  · intro h1 h2
    simp [_draw_shape, _draw_queue, h1, h2]
  · intro h
    simp only [List.mem_cons, List.not_mem_nil, not_or, or_false] at h
    obtain ⟨h1, h2, h3, h4⟩ := h
    by_cases hdb : comp_type = "database"
    · simp [_draw_shape, _draw_cylinder, h1, hdb]
    · by_cases hgw : comp_type = "gateway"
      · simp [_draw_shape, _draw_hexagon, h1, h2, hdb, hgw]
      · by_cases hq : comp_type = "queue"
        · simp [_draw_shape, _draw_queue, h1, h2, h3, h4, hdb, hgw, hq]
        · simp [_draw_shape, _draw_rounded_rect, h1, h2, h3, h4, hdb, hgw, hq]
  · intro h
    simp only [_draw_shape, _draw_cylinder, _draw_hexagon, _draw_circle, _draw_queue,
      _draw_rounded_rect] at h
    split_ifs at h
    all_goals simp_all

/-- C1 counterexample: a component with the explicit known override circle
and semantic type database is rendered as a cylinder, not a circle, so the
override does not take precedence over the type. -/
theorem C1_shape_selection_counterexample :
    (_draw_shape 0 0 "circle" "#FFFFFF" "db" "database" "").shape = ShapeKind.cylinder ∧
    ShapeKind.cylinder ≠ ShapeKind.circle := by
  exact ⟨rfl, by decide⟩

/-- C1 witness: the circle override is honored for a cache component. -/
theorem C1_shape_selection_witness :
    (_draw_shape 0 0 "circle" "#FFFFFF" "c" "cache" "").shape = ShapeKind.circle :=
  (C1_shape_selection 0 0 "#FFFFFF" "c" "" "circle" "cache").2.2.1
    (by decide) (by decide)

/-- C2 (amended): the rendered label of every resolvable relationship is
derived from its semantic type (underscores to spaces, then title case) and
any explicit label entry is ignored; the label text sits at the straight
line midpoint plus the fixed vertical offset, on a background rectangle of
width 7 per character and height 20. -/
theorem C2_edge_label (positions : List (String × ℚ × ℚ)) (rels : List Relationship)
    (rel : Relationship) (hmem : rel ∈ rels) (x1 y1 x2 y2 : ℚ)
    (h1 : posLookup positions rel.fromName? = some (x1, y1))
    (h2 : posLookup positions rel.toName? = some (x2, y2)) :
    (∃ e ∈ _generate_modern_edges rels positions,
      e.labelText = titleCase (replace_underscores (rel.type?.getD "request")) ∧
      e.label_text_x = (x1 + x2) / 2 ∧
      e.label_text_y = ((y1 + y2) / 2 + 20) + 3 ∧
      e.label_rect_x = (x1 + x2) / 2 - (e.labelText.length : ℚ) * 3.5 ∧
      e.label_rect_y = ((y1 + y2) / 2 + 20) - 12 ∧
      e.label_rect_width = (e.labelText.length : ℚ) * 7 ∧
      e.label_rect_height = 20) ∧
    _generate_modern_edges (rels.map (fun r => { r with label? := none })) positions =
      _generate_modern_edges rels positions := by
  constructor
  · refine ⟨_draw_bezier_edge x1 y1 x2 y2 (rel.line?.getD "solid")
      (rel.type?.getD "request") (rel.arrow?.getD true), ?_, ?_⟩
    · apply List.mem_filterMap.mpr
      refine ⟨rel, hmem, ?_⟩
      rw [h1, h2]
    · simp [_draw_bezier_edge]
  · rw [_generate_modern_edges, _generate_modern_edges, List.filterMap_map]
    rfl

/-- C2 counterexample: a relationship carrying the explicit label Custom and
type request is rendered with label text Request. -/
theorem C2_edge_label_counterexample :
    (_generate_modern_edges
        [⟨some "a", some "b", none, some "request", some "Custom", none⟩]
        [("a", 100, 100), ("b", 300, 100)]).map EdgeRender.labelText = ["Request"] ∧
    Relationship.label?
        ⟨some "a", some "b", none, some "request", some "Custom", none⟩ = some "Custom" ∧
    ("Request" : String) ≠ "Custom" := by
  exact ⟨rfl, rfl, by decide⟩

/-- C2 witness: a dashed sync_call relationship between two placed endpoints
gets the derived label Sync Call at the straight line midpoint. -/
theorem C2_edge_label_witness :
    (∃ e ∈ _generate_modern_edges
        [⟨some "s", some "t", some "dashed", some "sync_call", none, some true⟩]
        [("s", 200, 150), ("t", 600, 330)],
      e.labelText = titleCase (replace_underscores
        ((⟨some "s", some "t", some "dashed", some "sync_call", none,
          some true⟩ : Relationship).type?.getD "request")) ∧
      e.label_text_x = ((200 : ℚ) + 600) / 2 ∧
      e.label_text_y = (((150 : ℚ) + 330) / 2 + 20) + 3 ∧
      e.label_rect_x = ((200 : ℚ) + 600) / 2 - (e.labelText.length : ℚ) * 3.5 ∧
      e.label_rect_y = (((150 : ℚ) + 330) / 2 + 20) - 12 ∧
      e.label_rect_width = (e.labelText.length : ℚ) * 7 ∧
      e.label_rect_height = 20) ∧
    _generate_modern_edges
        (([⟨some "s", some "t", some "dashed", some "sync_call", none, some true⟩] :
            List Relationship).map
          (fun r => { r with label? := none }))
        [("s", 200, 150), ("t", 600, 330)] =
      _generate_modern_edges
        [⟨some "s", some "t", some "dashed", some "sync_call", none, some true⟩]
        [("s", 200, 150), ("t", 600, 330)] :=
  C2_edge_label [("s", 200, 150), ("t", 600, 330)]
    [⟨some "s", some "t", some "dashed", some "sync_call", none, some true⟩]
    ⟨some "s", some "t", some "dashed", some "sync_call", none, some true⟩
    (by simp) 200 150 600 330 rfl rfl

/-- C3: evaluating the in-place normalization at a concrete architecture
shows that the structures the caller holds afterwards differ from the
original input: the component loses its shape and color entries and gains a
layer entry, and the relationship loses its line entry. -/
theorem C3_normalize_mutates :
    normalize_for_diagram_caller_state
        ⟨[("api", ⟨some "client", some "Browser UI", some "circle", some "#FFFFFF", none⟩)],
          [⟨some "api", some "db", some "dashed", some "request", none, none⟩]⟩ ≠
      ⟨[("api", ⟨some "client", some "Browser UI", some "circle", some "#FFFFFF", none⟩)],
        [⟨some "api", some "db", some "dashed", some "request", none, none⟩]⟩ ∧
    (normalize_for_diagram_caller_state
        ⟨[("api", ⟨some "client", some "Browser UI", some "circle", some "#FFFFFF", none⟩)],
          [⟨some "api", some "db", some "dashed", some "request", none, none⟩]⟩).components.map
        (fun p => p.2.shape?) = [none] ∧
    (normalize_for_diagram_caller_state
        ⟨[("api", ⟨some "client", some "Browser UI", some "circle", some "#FFFFFF", none⟩)],
          [⟨some "api", some "db", some "dashed", some "request", none, none⟩]⟩).components.map
        (fun p => p.2.color?) = [none] ∧
    (normalize_for_diagram_caller_state
        ⟨[("api", ⟨some "client", some "Browser UI", some "circle", some "#FFFFFF", none⟩)],
          [⟨some "api", some "db", some "dashed", some "request", none, none⟩]⟩).components.map
        (fun p => p.2.layer?) = [some "client"] ∧
    (normalize_for_diagram_caller_state
        ⟨[("api", ⟨some "client", some "Browser UI", some "circle", some "#FFFFFF", none⟩)],
          [⟨some "api", some "db", some "dashed", some "request", none, none⟩]⟩).relationships.map
        Relationship.line? = [none] := by
  decide

/-- C6: for the default rounded rectangle family a description of at most 25
characters is rendered unchanged and a longer one is rendered as its first
25 characters followed by the ellipsis marker. -/
theorem C6_truncation_boundary (x y : ℚ) (color name comp_type description : String) :
    (description.length ≤ 25 →
      (_draw_rounded_rect x y color name comp_type description).descText =
        some description) ∧
    (25 < description.length →
      (_draw_rounded_rect x y color name comp_type description).descText =
        some (description.take 25 ++ "...")) := by
  constructor
  · intro h
    simp [_draw_rounded_rect, _draw_rounded_rect_desc, Nat.not_lt.mpr h]
  · intro h
    simp [_draw_rounded_rect, _draw_rounded_rect_desc, h]

/-- C6 witness: a 25 character description is kept verbatim and a 26
character one is truncated with the ellipsis. -/
theorem C6_truncation_boundary_witness :
    ("abcdefghijklmnopqrstuvwxy" : String).length ≤ 25 ∧
    (_draw_rounded_rect 0 0 "#FFFFFF" "n" "client" "abcdefghijklmnopqrstuvwxy").descText =
      some "abcdefghijklmnopqrstuvwxy" ∧
    25 < ("abcdefghijklmnopqrstuvwxyz" : String).length ∧
    (_draw_rounded_rect 0 0 "#FFFFFF" "n" "client" "abcdefghijklmnopqrstuvwxyz").descText =
      some ("abcdefghijklmnopqrstuvwxyz".take 25 ++ "...") :=
  ⟨by decide,
    (C6_truncation_boundary 0 0 "#FFFFFF" "n" "client" "abcdefghijklmnopqrstuvwxy").1
      (by decide),
    by decide,
    (C6_truncation_boundary 0 0 "#FFFFFF" "n" "client" "abcdefghijklmnopqrstuvwxyz").2
      (by decide)⟩

/-- C7: relationships whose endpoints do not both resolve to positions are
skipped without affecting anything else: the edge list equals the edge list
of the resolvable relationships alone, each resolvable relationship yields
exactly one edge, and the whole composed diagram is unchanged when the
unresolvable relationships are removed from the input. -/
theorem C7_dangling_edge_skip (components : List (String × Component))
    (rels : List Relationship) (topic? : Option String)
    (positions : List (String × ℚ × ℚ)) :
    _generate_modern_edges rels positions =
      _generate_modern_edges (rels.filter (resolvable positions)) positions ∧
    (_generate_modern_edges rels positions).length =
      (rels.filter (resolvable positions)).length ∧
    generate_diagram_svg ⟨components, rels, topic?⟩ =
      generate_diagram_svg
        ⟨components, rels.filter (resolvable (_calculate_hierarchical_layout components)),
          topic?⟩ := by
  have hmain : ∀ (ps : List (String × ℚ × ℚ)) (rs : List Relationship),
      _generate_modern_edges rs ps = _generate_modern_edges (rs.filter (resolvable ps)) ps ∧
      (_generate_modern_edges rs ps).length = (rs.filter (resolvable ps)).length := by
    intro ps rs
    induction rs with
    | nil => simp [_generate_modern_edges]
    | cons r rs ih =>
      cases hf : posLookup ps r.fromName? with
      | none =>
        simpa [_generate_modern_edges, List.filter_cons, resolvable, hf] using ih
      | some p1 =>
        cases ht : posLookup ps r.toName? with
        | none =>
          simpa [_generate_modern_edges, List.filter_cons, resolvable, hf, ht] using ih
        | some p2 =>
          simpa [_generate_modern_edges, List.filter_cons, resolvable, hf, ht] using ih
  refine ⟨(hmain positions rels).1, (hmain positions rels).2, ?_⟩
  by_cases hc : components.isEmpty
  · simp [generate_diagram_svg, hc]
  · simp [generate_diagram_svg, hc,
      (hmain (_calculate_hierarchical_layout components) rels).1]

set_option maxRecDepth 8000 in
/-- C8: an empty component set short-circuits to the placeholder document
(never the assembled diagram), the placeholder contains the text No
components found for: followed by the topic, and an absent topic defaults to
Architecture. -/
theorem C8_empty_placeholder (topic : String) (rels : List Relationship) :
    generate_diagram_svg ⟨[], rels, some topic⟩ =
      DiagramOutput.empty (_generate_empty_diagram topic) ∧
    (∀ t2 edges nodes,
      generate_diagram_svg ⟨[], rels, some topic⟩ ≠ DiagramOutput.diagram t2 edges nodes) ∧
    _generate_empty_diagram topic =
      ("<svg xmlns=\"http://www.w3.org/2000/svg\" viewBox=\"0 0 1400 900\" width=\"1400\" height=\"900\">\n        <rect width=\"100%\" height=\"100%\" fill=\"#f8fafc\"/>\n        <text x=\"700\" y=\"450\" text-anchor=\"middle\" font-size=\"24\" fill=\"#64748b\">\n            " : String) ++
      ("No components found for: " ++ topic) ++
      "\n        </text>\n        </svg>" ∧
    generate_diagram_svg ⟨[], rels, none⟩ =
      DiagramOutput.empty (_generate_empty_diagram "Architecture") := by
  refine ⟨rfl, ?_, ?_, rfl⟩
  · intro t2 edges nodes
    simp [generate_diagram_svg]
  · have hsplit :
        ("<svg xmlns=\"http://www.w3.org/2000/svg\" viewBox=\"0 0 1400 900\" width=\"1400\" height=\"900\">\n        <rect width=\"100%\" height=\"100%\" fill=\"#f8fafc\"/>\n        <text x=\"700\" y=\"450\" text-anchor=\"middle\" font-size=\"24\" fill=\"#64748b\">\n            " : String) ++
          "No components found for: " =
          "<svg xmlns=\"http://www.w3.org/2000/svg\" viewBox=\"0 0 1400 900\" width=\"1400\" height=\"900\">\n        <rect width=\"100%\" height=\"100%\" fill=\"#f8fafc\"/>\n        <text x=\"700\" y=\"450\" text-anchor=\"middle\" font-size=\"24\" fill=\"#64748b\">\n            No components found for: " := by
      decide
    rw [_generate_empty_diagram, ← hsplit]
    simp only [String.append_assoc]

/-- C9: the generator is a pure function of the input data: equal inputs
give equal layouts and equal composed documents. -/
theorem C9_determinism (d1 d2 : DiagramData) (h : d1 = d2) :
    _calculate_hierarchical_layout d1.components =
      _calculate_hierarchical_layout d2.components ∧
    generate_diagram_svg d1 = generate_diagram_svg d2 := by
  subst h
  exact ⟨rfl, rfl⟩

/-- C9 witness: determinism at a concrete input. -/
theorem C9_determinism_witness :
    _calculate_hierarchical_layout
        (DiagramData.components
          ⟨[("web", ⟨some "client", none, none, none, none⟩)], [], some "Shop"⟩) =
      _calculate_hierarchical_layout
        (DiagramData.components
          ⟨[("web", ⟨some "client", none, none, none, none⟩)], [], some "Shop"⟩) ∧
    generate_diagram_svg
        ⟨[("web", ⟨some "client", none, none, none, none⟩)], [], some "Shop"⟩ =
      generate_diagram_svg
        ⟨[("web", ⟨some "client", none, none, none, none⟩)], [], some "Shop"⟩ :=
  C9_determinism _ _ rfl

/-- C4 witness: in a two component graph (a client and a database) the
client position has the smallest y, and the database y equals margin_y plus
layer_height times the one non-empty layer before the data layer. -/
theorem C4_layer_assignment_witness :
    (150 : ℚ) ≤ 330 ∧
    (330 : ℚ) = margin_y + layer_height *
      (countNonempty
        [("web", (⟨some "client", none, none, none, none⟩ : Component)),
          ("db", (⟨some "database", none, none, none, none⟩ : Component))]
        (layerOrder.takeWhile (fun l2 => l2 !=
          layerOf (⟨some "database", none, none, none, none⟩ : Component))) : ℚ) := by
  have hweb : ("web", (700 : ℚ), (150 : ℚ)) ∈ _calculate_hierarchical_layout
      [("web", (⟨some "client", none, none, none, none⟩ : Component)),
        ("db", (⟨some "database", none, none, none, none⟩ : Component))] := by
    simp [_calculate_hierarchical_layout, placeLayers, layerOrder, layerMembers, placeLayer,
      placeLayerFrom, layerOf, layer_spacing, margin_x, margin_y, layer_height, canvas_width,
      str_toLower]
    norm_num
  have hdb : ("db", (700 : ℚ), (330 : ℚ)) ∈ _calculate_hierarchical_layout
      [("web", (⟨some "client", none, none, none, none⟩ : Component)),
        ("db", (⟨some "database", none, none, none, none⟩ : Component))] := by
    simp [_calculate_hierarchical_layout, placeLayers, layerOrder, layerMembers, placeLayer,
      placeLayerFrom, layerOf, layer_spacing, margin_x, margin_y, layer_height, canvas_width,
      str_toLower]
    norm_num
  have h4 := C4_layer_assignment
    [("web", (⟨some "client", none, none, none, none⟩ : Component)),
      ("db", (⟨some "database", none, none, none, none⟩ : Component))] (by decide)
  refine ⟨?_, ?_⟩
  · exact h4.2.2.2.2.2.2.1 "web" ⟨some "client", none, none, none, none⟩ 700 150
      (by decide) hweb (by decide) "db" 700 330 hdb
  · exact h4.2.2.2.2.2.2.2.2 "db" ⟨some "database", none, none, none, none⟩ 700 330
      (by decide) hdb

/-- C5 witness: two clients in one layer sit at 425 and 975, both cell
midpoints of the 550 wide cells, and their distance is 550. -/
theorem C5_even_spacing_witness :
    (425 : ℚ) = margin_x + (((0 : ℕ) : ℚ) + 0.5) *
      ((canvas_width - 2 * margin_x) /
        ((layerMembers
          [("a", (⟨some "client", none, none, none, none⟩ : Component)),
            ("b", (⟨some "client", none, none, none, none⟩ : Component))]
          "client").length : ℚ)) ∧
    (975 : ℚ) - 425 = (canvas_width - 2 * margin_x) /
      ((layerMembers
        [("a", (⟨some "client", none, none, none, none⟩ : Component)),
          ("b", (⟨some "client", none, none, none, none⟩ : Component))]
        "client").length : ℚ) := by
  have hpa : ("a", (425 : ℚ), (150 : ℚ)) ∈ _calculate_hierarchical_layout
      [("a", (⟨some "client", none, none, none, none⟩ : Component)),
        ("b", (⟨some "client", none, none, none, none⟩ : Component))] := by
    simp [_calculate_hierarchical_layout, placeLayers, layerOrder, layerMembers, placeLayer,
      placeLayerFrom, layerOf, layer_spacing, margin_x, margin_y, layer_height, canvas_width,
      str_toLower]
    norm_num
  have hpb : ("b", (975 : ℚ), (150 : ℚ)) ∈ _calculate_hierarchical_layout
      [("a", (⟨some "client", none, none, none, none⟩ : Component)),
        ("b", (⟨some "client", none, none, none, none⟩ : Component))] := by
    simp [_calculate_hierarchical_layout, placeLayers, layerOrder, layerMembers, placeLayer,
      placeLayerFrom, layerOf, layer_spacing, margin_x, margin_y, layer_height, canvas_width,
      str_toLower]
    norm_num
  exact C5_even_spacing
    [("a", (⟨some "client", none, none, none, none⟩ : Component)),
      ("b", (⟨some "client", none, none, none, none⟩ : Component))]
    (by decide) "client" 0 (by decide) "a" "b"
    ⟨some "client", none, none, none, none⟩ ⟨some "client", none, none, none, none⟩
    425 150 975 150 (by decide) (by decide) (by decide) (by decide) hpa hpb

/-- C10 witness: the single placed component of a one component graph sits
at (700, 150), inside the canvas bounds. -/
theorem C10_canvas_bounds_witness :
    (150 : ℚ) ≤ 700 ∧ (700 : ℚ) ≤ 1250 ∧
    ∃ k : ℕ, k ≤ 3 ∧ (150 : ℚ) = 150 + 180 * (k : ℚ) := by
  have hweb : ("web", (700 : ℚ), (150 : ℚ)) ∈ _calculate_hierarchical_layout
      [("web", (⟨some "client", none, none, none, none⟩ : Component))] := by
    simp [_calculate_hierarchical_layout, placeLayers, layerOrder, layerMembers, placeLayer,
      placeLayerFrom, layerOf, layer_spacing, margin_x, margin_y, layer_height, canvas_width,
      str_toLower]
    norm_num
  exact C10_canvas_bounds
    [("web", (⟨some "client", none, none, none, none⟩ : Component))] "web" 700 150 hweb
